import Mathlib

/-!
Verification of the `@libsql/vector` record-index facade (src/src/index.ts).

The TypeScript source is shallowly embedded below.  Machine/JS numbers are
modelled as `Int` (no claim under verification depends on fractional or IEEE
behaviour); SQL values arriving from the libsql client are modelled by `Value`;
fallible JS code (functions that can `throw`) returns `Except`.  The external
database engine is modelled only at the contract points the claims need
(ordered keyset reads for `list`, membership reads for `retrieve`); each such
model carries a doc comment saying what engine behaviour it captures.
-/

namespace LV

/-- A SQL value as delivered to/by the libsql client (`Value` in
`@libsql/client`): `null`, a JS number (modelled integrally), a `bigint`,
a string, or an `ArrayBuffer` blob.  A blob holding float32s is modelled by
the list of numbers it decodes to, since no claim depends on the byte layout. -/
inductive Value where
  | vNull : Value
  | vInt : Int → Value
  | vBig : Int → Value
  | vStr : String → Value
  | vBlob : List Int → Value
deriving DecidableEq

/-- JS truthiness of a client `Value`, used by the source in guards such as
`if (includeVectors && row.vector)` and `if (cursor)`. -/
def jsTruthy : Value → Bool
  | .vNull => false
  | .vInt n => n ≠ 0
  | .vBig n => n ≠ 0
  | .vStr s => s ≠ ""
  | .vBlob _ => true

/-- A thrown JS `Error`, carrying its message. -/
inductive JsError where
  | message : String → JsError
deriving DecidableEq

/-- The single-quote character, written via its code point. -/
def squote : Char := Char.ofNat 39

/-- Character-list form of the replace call in upsert that doubles every
single quote of its input. -/
def escQuotesList : List Char → List Char
  | [] => []
  | c :: cs =>
    if c = squote then squote :: squote :: escQuotesList cs
    else c :: escQuotesList cs

/-- String form of the quote-doubling replace call from the upsert value
construction in the source. -/
def escQuotes (s : String) : String := ⟨escQuotesList s.data⟩

/-- Wrap a rendered fragment in single quotes, as the quote-wrapped template
fragments in upsert do. -/
def sqlQuote (s : String) : String := ⟨squote :: s.data ++ [squote]⟩

/-- SQL string-literal lexer (independent of the code under verification):
given the characters after an opening quote, scan to the matching closing
quote, decoding each doubled quote to a single quote, and return the decoded
content together with the characters after the literal.  `none` means the
literal never closes. -/
def lexLitAux : List Char → Option (List Char × List Char)
  | [] => none
  | c :: cs =>
    if c = squote then
      match cs with
      | [] => some ([], [])
      | d :: ds =>
        if d = squote then
          match lexLitAux ds with
          | some (con, r) => some (squote :: con, r)
          | none => none
        else some ([], cs)
    else
      match lexLitAux cs with
      | some (con, r) => some (c :: con, r)
      | none => none

/-- Lex one complete SQL single-quoted string literal from the front of `s`:
returns the decoded content and the remainder after the closing quote. -/
def sqlLexLit (s : String) : Option (String × String) :=
  match s.data with
  | [] => none
  | c :: cs =>
    if c = squote then
      match lexLitAux cs with
      | some (con, r) => some (⟨con⟩, ⟨r⟩)
      | none => none
    else none

/-- The column definition shape (name plus declared type) from the source. -/
structure ColumnDefinition where
  name : String
  colType : String
deriving DecidableEq

/-- The options object taken by the `Index` constructor. -/
structure IndexOptions where
  tableName : Option String := none
  dimensions : Int
  columns : List ColumnDefinition
  debug : Bool := false

/-- The constructed index state: `this.tableName`, `this.dimensions`,
`this.columns` (the debug flag only controls logging and is dropped). -/
structure IndexConfig where
  tableName : String
  dimensions : Int
  columns : List ColumnDefinition
deriving DecidableEq

/-- The `Index` constructor.  `options.tableName || "vector_index"` is a JS
truthiness check, so an empty string also falls back to the default. -/
def makeIndex (options : IndexOptions) : IndexConfig :=
  { tableName :=
      match options.tableName with
      | some s => if s = "" then "vector_index" else s
      | none => "vector_index"
    dimensions := options.dimensions
    columns := options.columns }

/-- A record identifier: `string | number` in the source. -/
inductive IdValue where
  | str : String → IdValue
  | num : Int → IdValue
deriving DecidableEq

/-- The string rendering `vec.id.toString()` used by upsert. -/
def IdValue.toText : IdValue → String
  | .str s => s
  | .num n => toString n

/-- A scalar value held in a named column of a record (`Value` on the JS side):
a string, a number, or an explicit `null`. -/
inductive JsVal where
  | jstr : String → JsVal
  | jnum : Int → JsVal
  | jnull : JsVal
deriving DecidableEq

/-- A record passed to `upsert` (the `Vector` interface of the source): identifier,
numeric vector, and the named scalar columns present on the object.  A column
name absent from `fields` models a missing (undefined) property. -/
structure VectorRecord where
  id : IdValue
  vector : List Int
  fields : List (String × JsVal) := []

/-- The JS `xs.join(", ")`. -/
def joinComma (xs : List String) : String := String.intercalate ", " xs

/-- The column-name list `["id", "embedding", ...this.columns.map(c => c.name)]`. -/
def upsertColumnNames (cfg : IndexConfig) : List String :=
  "id" :: "embedding" :: cfg.columns.map (fun col => col.name)

/-- Reading `vec[col.name]`: `none` models the property being absent
(undefined). -/
def upsertColumnValue (vec : VectorRecord) (col : ColumnDefinition) : Option JsVal :=
  vec.fields.lookup col.name

/-- How one element of the `values` array of the source is rendered by
`values.join(", ")`: a string value becomes a quote-escaped SQL literal; a
number is stringified; `null` and `undefined` elements are rendered by
`Array.prototype.join` as the empty string. -/
def renderUpsertValue : Option JsVal → String
  | some (.jstr s) => sqlQuote (escQuotes s)
  | some (.jnum n) => toString n
  | some .jnull => ""
  | none => ""

/-- The identifier element: the stringified id, quote-doubled, wrapped in
single quotes. -/
def idLiteral (vec : VectorRecord) : String :=
  sqlQuote (escQuotes vec.id.toText)

/-- The vector element: vector32 applied to the bracketed comma-joined vector
entries inside a single-quoted literal. -/
def vectorLiteral (xs : List Int) : String :=
  "vector32(" ++ sqlQuote ("[" ++ joinComma (xs.map toString) ++ "]") ++ ")"

/-- The `values` array of the source for one record, as rendered into the
statement text by `values.join(", ")`. -/
def upsertValues (cfg : IndexConfig) (vec : VectorRecord) : List String :=
  idLiteral vec :: vectorLiteral vec.vector ::
    cfg.columns.map (fun col => renderUpsertValue (upsertColumnValue vec col))

/-- The INSERT OR REPLACE statement text built for one record (the template
literal whitespace is kept verbatim). -/
def upsertSql (cfg : IndexConfig) (vec : VectorRecord) : String :=
  "\n        INSERT OR REPLACE INTO " ++ cfg.tableName ++ " (" ++
    joinComma (upsertColumnNames cfg) ++ ")\n        VALUES (" ++
    joinComma (upsertValues cfg vec) ++ ")\n      "

/-- Method `upsert`: one statement per record, in input order (a single record is
wrapped into a one-element array by the caller-side `Array.isArray` check),
then the constant `"Success"`. -/
def upsert (cfg : IndexConfig) (vectors : List VectorRecord) : List String × String :=
  (vectors.map (upsertSql cfg), "Success")

/-! ## JSON parsing (model of the `JSON.parse` of the JS runtime)

`parseVector` calls `JSON.parse` on textual values.  `JSON.parse` is part of
the JS runtime, external to the repository; it is modelled here by a recursive
descent parser for the JSON subset the claims exercise: `null`, booleans,
integer numbers, strings without escape sequences, and arrays.  (Fractional
numbers, objects and string escapes are omitted: no claim depends on them, and
the restriction only makes the modelled parser reject more inputs.) -/

/-- A parsed JSON value (subset, see above). -/
inductive Json where
  | jnull : Json
  | jbool : Bool → Json
  | jnum : Int → Json
  | jstr : String → Json
  | jarr : List Json → Json

/-- The double-quote character. -/
def dquote : Char := Char.ofNat 34

/-- The backslash character. -/
def backslash : Char := Char.ofNat 92

/-- Skip JSON whitespace. -/
def skipWs : List Char → List Char
  | [] => []
  | c :: cs =>
    if c = ' ' || c = Char.ofNat 9 || c = Char.ofNat 10 || c = Char.ofNat 13 then
      skipWs cs
    else c :: cs

/-- Decimal digit value of a character, if any. -/
def digitVal (c : Char) : Option Nat :=
  if '0' ≤ c ∧ c ≤ '9' then some (c.toNat - 48) else none

/-- Consume further digits, accumulating a natural number. -/
def parseDigitsAux : Nat → List Char → Nat × List Char
  | acc, [] => (acc, [])
  | acc, c :: cs =>
    match digitVal c with
    | some d => parseDigitsAux (acc * 10 + d) cs
    | none => (acc, c :: cs)

/-- Parse at least one decimal digit. -/
def parseNat : List Char → Option (Nat × List Char)
  | [] => none
  | c :: cs =>
    match digitVal c with
    | some d => some (parseDigitsAux d cs)
    | none => none

/-- Parse the characters of a JSON string after the opening double quote,
up to the closing double quote (escape sequences not modelled). -/
def parseStrChars : List Char → Option (List Char × List Char)
  | [] => none
  | c :: cs =>
    if c = dquote then some ([], cs)
    else if c = backslash then none
    else
      match parseStrChars cs with
      | some (s, r) => some (c :: s, r)
      | none => none

mutual

/-- Parse one JSON value (fuelled; the fuel bounds nesting depth). -/
def parseJsonVal : Nat → List Char → Option (Json × List Char)
  | 0, _ => none
  | fuel + 1, cs0 =>
    match skipWs cs0 with
    | [] => none
    | c :: rest =>
      if c = dquote then
        match parseStrChars rest with
        | some (s, r) => some (.jstr ⟨s⟩, r)
        | none => none
      else if c = Char.ofNat 91 then
        match skipWs rest with
        | [] => none
        | d :: rest2 =>
          if d = Char.ofNat 93 then some (.jarr [], rest2)
          else
            match parseJsonItems fuel (d :: rest2) with
            | some (vs, r) => some (.jarr vs, r)
            | none => none
      else if c = 'n' then
        match rest with
        | u :: l1 :: l2 :: r =>
          if u = 'u' ∧ l1 = 'l' ∧ l2 = 'l' then some (.jnull, r) else none
        | _ => none
      else if c = 't' then
        match rest with
        | r1 :: u1 :: e1 :: r =>
          if r1 = 'r' ∧ u1 = 'u' ∧ e1 = 'e' then some (.jbool true, r) else none
        | _ => none
      else if c = 'f' then
        match rest with
        | a1 :: l1 :: s1 :: e1 :: r =>
          if a1 = 'a' ∧ l1 = 'l' ∧ s1 = 's' ∧ e1 = 'e' then some (.jbool false, r)
          else none
        | _ => none
      else if c = '-' then
        match parseNat rest with
        | some (n, r) => some (.jnum (-(n : Int)), r)
        | none => none
      else
        match parseNat (c :: rest) with
        | some (n, r) => some (.jnum (n : Int), r)
        | none => none

/-- Parse one or more comma-separated JSON array items up to the closing
bracket. -/
def parseJsonItems : Nat → List Char → Option (List Json × List Char)
  | 0, _ => none
  | fuel + 1, cs =>
    match parseJsonVal fuel cs with
    | none => none
    | some (v, r) =>
      match skipWs r with
      | c :: r2 =>
        if c = ',' then
          match parseJsonItems fuel r2 with
          | some (vs, r3) => some (v :: vs, r3)
          | none => none
        else if c = Char.ofNat 93 then some ([v], r2)
        else none
      | [] => none

end

/-- Model of `JSON.parse` (subset): the whole input, less trailing whitespace,
must be consumed. -/
def jsonParse (s : String) : Option Json :=
  match parseJsonVal (s.length + 1) s.data with
  | some (v, rest) => if skipWs rest = [] then some v else none
  | none => none

/-! ## Result-row decoding helpers -/

/-- What `parseVector` returns on success: the JSON branch returns the parsed
value unchecked (the source casts the `JSON.parse` result to `number[]` without
validation), the blob branch the numbers decoded from the buffer. -/
inductive DecodedVector where
  | fromJson : Json → DecodedVector
  | fromBlob : List Int → DecodedVector

/-- Method `parseVector` (source lines 338-354): a string is passed to `JSON.parse`
(rethrowing its failure), an `ArrayBuffer` is decoded as a `Float32Array`,
`null` becomes `undefined` (absent), anything else throws. -/
def parseVector : Value → Except JsError (Option DecodedVector)
  | .vStr s =>
    match jsonParse s with
    | some j => .ok (some (.fromJson j))
    | none => .error (.message "Failed to parse vector")
  | .vBlob xs => .ok (some (.fromBlob xs))
  | .vNull => .ok none
  | .vInt _ => .error (.message "Invalid vector type: number")
  | .vBig _ => .error (.message "Invalid vector type: bigint")

/-- Method `ensureIdType`: strings and numbers pass through, a bigint is converted
with `Number(...)`, anything else throws. -/
def ensureIdType : Value → Except JsError IdValue
  | .vStr s => .ok (.str s)
  | .vInt n => .ok (.num n)
  | .vBig n => .ok (.num n)
  | .vNull => .error (.message "Invalid id type: object")
  | .vBlob _ => .error (.message "Invalid id type: object")

/-- Model of JS `parseFloat` restricted to the integral numeric model: an
optional sign followed by leading digits; inputs with no numeric prefix
produce NaN, collapsed to 0 here (no claim depends on the value). -/
def jsParseFloatInt (s : String) : Int :=
  match s.data with
  | c :: cs =>
    if c = '-' then
      match parseNat cs with
      | some (n, _) => -(n : Int)
      | none => 0
    else
      match parseNat (c :: cs) with
      | some (n, _) => (n : Int)
      | none => 0
  | [] => 0

/-- Method `ensureNumber`: numbers pass through, strings go through `parseFloat`,
bigints through `Number(...)`, anything else throws. -/
def ensureNumber : Value → Except JsError Int
  | .vInt n => .ok n
  | .vStr s => .ok (jsParseFloatInt s)
  | .vBig n => .ok n
  | .vNull => .error (.message "Invalid score type: object")
  | .vBlob _ => .error (.message "Invalid score type: object")

/-! ## Engine model

A result row as the client delivers it.  The `id` column of the table is `TEXT
PRIMARY KEY` (see `createTable`), so stored identifiers are strings.  The
`similarity` and `vector` fields carry the values of the corresponding
projected columns when the executed statement selects them; `cols` carries the
configured scalar columns. -/
structure Row where
  id : String
  similarity : Value := .vNull
  vector : Value := .vNull
  cols : List (String × Value) := []
deriving DecidableEq

/-- Reading `row[name]` for a configured scalar column; an absent entry models
an SQL NULL from the engine. -/
def rowGet (row : Row) (name : String) : Value :=
  (row.cols.lookup name).getD .vNull

/-- SQLite `LIMIT n` bound by the client: a negative bound means no limit,
otherwise at most `n` rows. -/
def applyLimit (rows : List Row) (lim : Int) : List Row :=
  if lim < 0 then rows else rows.take lim.toNat

/-- The `WHERE id > ?` predicate of the list statement (absent when no cursor
was bound); `<` is the text ordering of the stored identifiers. -/
def cursorFilter (cursor : Option String) (table : List Row) : List Row :=
  match cursor with
  | none => table
  | some c => table.filter (fun r => c < r.id)

/-- Models `client.execute` of the list statement
`SELECT ... FROM t [WHERE id > ?] ORDER BY id LIMIT ?`: the table is given as
its id-sorted row enumeration, the engine filters by the cursor predicate and
truncates at the bound limit. -/
def engineList (table : List Row) (cursor : Option String) (lim : Int) : List Row :=
  applyLimit (cursorFilter cursor table) lim

/-- A failure reported by the engine when executing a statement. -/
inductive EngineError where
  | malformedStatement : String → EngineError
deriving DecidableEq

/-- Models `client.execute` of the retrieve statement
`SELECT ... FROM t WHERE id IN (?, ..., ?)`: SQLite rejects an empty
parenthesized IN list as malformed, otherwise it returns the rows whose id
equals one of the bound arguments, in engine (table) order. -/
def engineRetrieve (table : List Row) (ids : List String) :
    Except EngineError (List Row) :=
  if ids.isEmpty then .error (.malformedStatement "incomplete input near )")
  else .ok (table.filter (fun r => ids.contains r.id))

/-- A failure surfaced by a facade call: either the engine rejected the
statement or the row mapping threw. -/
inductive CallError where
  | engine : EngineError → CallError
  | js : JsError → CallError

/-- A statement handed to `client.execute`: the SQL text and the bound
arguments. -/
structure Stmt where
  sql : String
  args : List Value
deriving DecidableEq

/-- A `rows.map` with a fallible body: the first thrown error aborts the call. -/
def exceptMap (f : α → Except ε β) : List α → Except ε (List β)
  | [] => .ok []
  | a :: as =>
    match f a with
    | .error e => .error e
    | .ok b =>
      match exceptMap f as with
      | .error e => .error e
      | .ok bs => .ok (b :: bs)

/-! ## list -/

/-- The options object taken by `list`; `none` fields model absent properties,
resolved to their defaults by the destructuring in the source. -/
structure ListOptions where
  cursor : Option String := none
  limit : Option Int := none
  includeVectors : Option Bool := none
  includeMetadata : Option Bool := none

/-- A list/retrieve result item.  `extra` models any further top-level keys of
the JS object (the interfaces allow them through an index signature); the
source never assigns one, which the shape claims make observable. -/
structure ListItem where
  id : IdValue
  vector : Option DecodedVector := none
  metadata : Option (List (String × Value)) := none
  extra : List (String × Value) := []

/-- The value returned by `list`. -/
structure ListResponse where
  items : List ListItem
  nextCursor : Option String

/-- The select clauses of the list statement, in source order. -/
def listSelectClauses (cfg : IndexConfig) (includeVectors includeMetadata : Bool) :
    List String :=
  [cfg.tableName ++ ".id"]
    ++ (if includeVectors then ["vector_extract(embedding) as vector"] else [])
    ++ (if includeMetadata then cfg.columns.map (fun col => col.name) else [])

/-- The `if (cursor)` in the source is a JS truthiness test: an absent cursor and
the empty-string cursor both leave the WHERE clause out. -/
def activeCursor : Option String → Option String
  | some c => if c = "" then none else some c
  | none => none

/-- The statement built by `list` (lines 181-203): cursor and limit are bound
as `?` parameters, never interpolated; the bound limit is `limit + 1`. -/
def listStmt (cfg : IndexConfig) (options : ListOptions) : Stmt :=
  let limit := options.limit.getD 10
  let includeVectors := options.includeVectors.getD false
  let includeMetadata := options.includeMetadata.getD true
  let base := "SELECT " ++ joinComma (listSelectClauses cfg includeVectors includeMetadata)
    ++ " FROM " ++ cfg.tableName
  match activeCursor options.cursor with
  | some c =>
    { sql := base ++ " WHERE id > ?" ++ " ORDER BY id LIMIT ?"
      args := [.vStr c, .vInt (limit + 1)] }
  | none =>
    { sql := base ++ " ORDER BY id LIMIT ?"
      args := [.vInt (limit + 1)] }

/-- JS `rows.slice(0, n)` semantics: a negative end counts from the end
of the array. -/
def jsSlice (rows : List Row) (n : Int) : List Row :=
  if n < 0 then rows.take ((rows.length : Int) + n).toNat else rows.take n.toNat

/-- JS `rows[i]` semantics: a negative index yields `undefined`. -/
def jsIndex (rows : List Row) (i : Int) : Option Row :=
  if i < 0 then none else rows.get? i.toNat

/-- The body of the `rows.map` in `list` (lines 211-226): the item carries the
coerced id, the decoded vector when `includeVectors` is set and the raw value
is truthy (so a NULL vector yields no field), and the configured columns
nested under `metadata` when `includeMetadata` is set. -/
def rowToListItem (cfg : IndexConfig) (includeVectors includeMetadata : Bool)
    (row : Row) : Except JsError ListItem :=
  match ensureIdType (.vStr row.id) with
  | .error e => .error e
  | .ok idv =>
    match
      (if includeVectors ∧ jsTruthy row.vector then parseVector row.vector
       else .ok none : Except JsError (Option DecodedVector)) with
    | .error e => .error e
    | .ok vec =>
      .ok { id := idv
            vector := vec
            metadata :=
              if includeMetadata then
                some (cfg.columns.map (fun col => (col.name, rowGet row col.name)))
              else none }

/-- Method `list` (lines 173-239), with `client.execute` modelled by `engineList`:
resolve defaults, fetch `limit + 1` rows past the cursor, return early on an
empty fetch, slice the first `limit` rows into items, and take the next cursor
from the row at JS index `limit - 1` when more than `limit` rows came back. -/
def list (cfg : IndexConfig) (table : List Row) (options : ListOptions) :
    Except JsError ListResponse :=
  let cursor := activeCursor options.cursor
  let limit := options.limit.getD 10
  let includeVectors := options.includeVectors.getD false
  let includeMetadata := options.includeMetadata.getD true
  let rows := engineList table cursor (limit + 1)
  if rows.length = 0 then .ok { items := [], nextCursor := none }
  else
    match exceptMap (rowToListItem cfg includeVectors includeMetadata)
      (jsSlice rows limit) with
    | .error e => .error e
    | .ok items =>
      let nextCursor :=
        if limit < (rows.length : Int) then
          match jsIndex rows (limit - 1) with
          | some lastItem => some lastItem.id
          | none => none
        else none
      .ok { items := items, nextCursor := nextCursor }

/-- Chained pagination: call `list` with the given cursor, and while the
response carries a next cursor, feed it into the next call.  Fuel bounds the
number of calls; a thrown error ends the trace. -/
def listPages (cfg : IndexConfig) (table : List Row) (limit : Int) :
    Option String → Nat → List ListResponse
  | _, 0 => []
  | cursor, fuel + 1 =>
    match list cfg table { cursor := cursor, limit := some limit } with
    | .error _ => []
    | .ok page =>
      match page.nextCursor with
      | none => [page]
      | some c => page :: listPages cfg table limit (some c) fuel

/-! ## retrieve -/

/-- The first argument of `retrieve`: a single identifier or an array of
identifiers.  Identifiers are modelled as strings (their stored TEXT form);
the source also admits numbers. -/
inductive RetrieveIds where
  | one : String → RetrieveIds
  | many : List String → RetrieveIds

/-- The options object taken by `retrieve`. -/
structure RetrieveOptions where
  includeVector : Option Bool := none
  includeMetadata : Option Bool := none

/-- The normalisation `Array.isArray(ids) ? ids : [ids]`. -/
def retrieveIdsArray : RetrieveIds → List String
  | .one i => [i]
  | .many ids => ids

/-- The value returned by `retrieve`: a single (possibly absent) result for a
single-identifier input, a list for an array input.  `none` in `single` models
the `undefined` produced by `items[0]` on an empty result set. -/
inductive RetrieveResult where
  | single : Option ListItem → RetrieveResult
  | several : List ListItem → RetrieveResult

/-- The statement built by `retrieve` (lines 248-263): one `?` placeholder
per identifier, identifiers bound as arguments. -/
def retrieveStmt (cfg : IndexConfig) (ids : RetrieveIds) (options : RetrieveOptions) :
    Stmt :=
  let includeVector := options.includeVector.getD true
  let includeMetadata := options.includeMetadata.getD true
  let clauses := [cfg.tableName ++ ".id"]
    ++ (if includeVector then ["vector_extract(embedding) as vector"] else [])
    ++ (if includeMetadata then cfg.columns.map (fun col => col.name) else [])
  let idsArray := retrieveIdsArray ids
  { sql := "\n      SELECT " ++ joinComma clauses ++ "\n      FROM " ++ cfg.tableName
      ++ "\n      WHERE id IN (" ++ joinComma (idsArray.map (fun _ => "?")) ++ ")\n    "
    args := idsArray.map .vStr }

/-- Method `retrieve` (lines 241-282), with `client.execute` modelled by
`engineRetrieve`: look up all bound identifiers in one membership query, map
the returned rows exactly as `list` does (the loop body at lines 267-279 is
the same construction), and return `items[0]` for a single-identifier input,
the item array otherwise. -/
def retrieve (cfg : IndexConfig) (table : List Row) (ids : RetrieveIds)
    (options : RetrieveOptions) : Except CallError RetrieveResult :=
  let includeVector := options.includeVector.getD true
  let includeMetadata := options.includeMetadata.getD true
  match engineRetrieve table (retrieveIdsArray ids) with
  | .error e => .error (.engine e)
  | .ok rows =>
    match exceptMap (rowToListItem cfg includeVector includeMetadata) rows with
    | .error e => .error (.js e)
    | .ok items =>
      match ids with
      | .many _ => .ok (.several items)
      | .one _ => .ok (.single items.head?)

/-! ## query -/

/-- The options object taken by `query`. -/
structure QueryOptions where
  topK : Int
  includeVectors : Option Bool := none
  filter : Option String := none

/-- A query result: id, similarity score, optional decoded vector, and the
configured columns flattened onto the top level (`fields`). -/
structure QueryResponse where
  id : IdValue
  score : Int
  vector : Option DecodedVector := none
  fields : List (String × Value) := []

/-- The statement built by `query` (lines 132-147): the query vector and the
filter are interpolated into the text, `topK` is bound as the one `?`
argument. -/
def queryStmt (cfg : IndexConfig) (queryVector : List Int) (options : QueryOptions) :
    Stmt :=
  let includeVectors := options.includeVectors.getD false
  let filter := options.filter.getD ""
  let selectClauses :=
    [cfg.tableName ++ ".id",
     "1 - vector_distance_cos(embedding, vector32(" ++
       sqlQuote ("[" ++ joinComma (queryVector.map toString) ++ "]") ++
       ")) as similarity"]
    ++ cfg.columns.map (fun col => col.name)
    ++ (if includeVectors then ["vector_extract(embedding) as vector"] else [])
  { sql := "\n        SELECT " ++ joinComma selectClauses ++ "\n        FROM "
      ++ cfg.tableName ++ "\n        "
      ++ (if filter = "" then "" else "WHERE " ++ filter)
      ++ "\n        ORDER BY similarity DESC\n        LIMIT ?\n      "
    args := [.vInt options.topK] }

/-- The body of the `result.rows.map` in `query` (lines 155-170): coerce id
and score, decode the vector when requested (no truthiness guard here, so a
NULL vector reaches `parseVector` and becomes an absent field), and copy each
value of each configured column onto the top level. -/
def rowToQueryResponse (cfg : IndexConfig) (includeVectors : Bool) (row : Row) :
    Except JsError QueryResponse :=
  match ensureIdType (.vStr row.id) with
  | .error e => .error e
  | .ok idv =>
    match ensureNumber row.similarity with
    | .error e => .error e
    | .ok score =>
      match
        (if includeVectors then parseVector row.vector
         else .ok none : Except JsError (Option DecodedVector)) with
      | .error e => .error e
      | .ok vec =>
        .ok { id := idv
              score := score
              vector := vec
              fields := cfg.columns.map (fun col => (col.name, rowGet row col.name)) }

/-- Method `query` (lines 126-171): build the statement and map the rows the engine
returns.  The distance computation, filtering and ordering happen inside the
engine; its result rows are taken as given (`resultRows`).  Note the source
performs no dimensionality check anywhere on this path. -/
def query (cfg : IndexConfig) (resultRows : List Row) (queryVector : List Int)
    (options : QueryOptions) : Except JsError (Stmt × List QueryResponse) :=
  let includeVectors := options.includeVectors.getD false
  match exceptMap (rowToQueryResponse cfg includeVectors) resultRows with
  | .error e => .error e
  | .ok responses => .ok (queryStmt cfg queryVector options, responses)

/-! ## Derived abbreviations used in theorem statements -/

/-- The nested metadata mapping built for a row: the value of each configured
column keyed by its name. -/
def metaCols (cfg : IndexConfig) (row : Row) : List (String × Value) :=
  cfg.columns.map (fun col => (col.name, rowGet row col.name))

/-- The item `list`/`retrieve` produce for a row when the vector field stays
absent and metadata is included (the evaluation of the shared row mapping at
those settings; see `rowToListItem_eval`). -/
def defaultListItem (cfg : IndexConfig) (row : Row) : ListItem :=
  { id := .str row.id, vector := none, metadata := some (metaCols cfg row), extra := [] }

/-- Ceiling division on naturals: the page count `⌈n / l⌉`. -/
def ceilDiv (n l : Nat) : Nat := (n + l - 1) / l

/-! ## Helper lemmas -/

theorem lexLitAux_esc (l : List Char) :
    lexLitAux (escQuotesList l ++ [squote]) = some (l, []) := by
  induction l with
  | nil => simp [escQuotesList, lexLitAux]
  | cons c cs ih =>
    by_cases hc : c = squote
    · subst hc
      have h1 : escQuotesList (squote :: cs) ++ [squote]
          = squote :: squote :: (escQuotesList cs ++ [squote]) := by
        simp [escQuotesList]
      rw [h1, lexLitAux]
      simp [ih]
    · have h1 : escQuotesList (c :: cs) ++ [squote]
          = c :: (escQuotesList cs ++ [squote]) := by
        simp [escQuotesList, hc]
      rw [h1, lexLitAux.eq_def]
      simp [hc, ih]

/-- The escaping performed by upsert is structure-preserving: the rendered
fragment for a string is one complete SQL string literal whose decoded content
is exactly the original string, with nothing left over.  In particular every
single quote of the input is neutralized inside the literal. -/
theorem sqlLexLit_roundtrip (s : String) :
    sqlLexLit (sqlQuote (escQuotes s)) = some (s, "") := by
  show sqlLexLit ⟨squote :: escQuotesList s.data ++ [squote]⟩ = some (s, "")
  unfold sqlLexLit
  simp only [List.cons_append, if_pos rfl]
  rw [lexLitAux_esc]
  rfl

theorem exceptMap_ok (f : α → Except ε β) (g : α → β) (h : ∀ a, f a = .ok (g a)) :
    ∀ l : List α, exceptMap f l = .ok (l.map g) := by
  intro l
  induction l with
  | nil => rfl
  | cons a as ih => simp [exceptMap, h a, ih]

theorem rowToListItem_eval (cfg : IndexConfig) (iv im : Bool) (row : Row)
    (h : iv = false ∨ jsTruthy row.vector = false) :
    rowToListItem cfg iv im row =
      .ok { id := .str row.id, vector := none,
            metadata := if im then some (metaCols cfg row) else none,
            extra := [] } := by
  have hcond : ¬ (iv ∧ jsTruthy row.vector) := by
    rcases h with h | h <;> simp [h]
  simp [rowToListItem, ensureIdType, if_neg hcond, metaCols]

theorem applyLimit_ofNat (rows : List Row) (n : Nat) :
    applyLimit rows (n : Int) = rows.take n := by
  simp [applyLimit]

/-! ## Concrete example configuration used by closed theorems -/

/-- A concrete configured index: default table name, three dimensions, one
text column (matching the shape the repository tests configure). -/
def cfgEx : IndexConfig :=
  { tableName := "vector_index", dimensions := 3,
    columns := [{ name := "title", colType := "TEXT" }] }

/-- A record supplying id and vector but no `title` property. -/
def recMissingTitle : VectorRecord := { id := .str "1", vector := [1, 2, 3] }

theorem map_questionmarks (l : List String) :
    l.map (fun _ => "?") = List.replicate l.length "?" := by
  induction l with
  | nil => rfl
  | cons a t ih => simp [List.replicate_succ, ih]

/-- C4: every record identifier and every string-valued configured column is
escaped before entering the upsert statement — the rendered fragment is one
complete SQL string literal decoding back to the original content, so no
single quote in record content escapes the literal — and ordinary scalars are
bound, not interpolated: the text of the list statement is independent of the
cursor and limit values (both travel in `args`), the text of the retrieve
statement depends only on how many identifiers are bound (the identifiers travel
in `args`), and `topK` is the one bound argument of the query statement. -/
theorem c4_escaping_and_parameter_binding :
    (∀ vec : VectorRecord, sqlLexLit (idLiteral vec) = some (vec.id.toText, ""))
    ∧ (∀ (vec : VectorRecord) (col : ColumnDefinition) (s : String),
        upsertColumnValue vec col = some (.jstr s) →
        sqlLexLit (renderUpsertValue (upsertColumnValue vec col)) = some (s, ""))
    ∧ (∀ (cfg : IndexConfig) (c1 c2 : String) (l1 l2 : Int) (iv im : Option Bool),
        c1 ≠ "" → c2 ≠ "" →
        (listStmt cfg { cursor := some c1, limit := some l1, includeVectors := iv, includeMetadata := im }).sql
          = (listStmt cfg { cursor := some c2, limit := some l2, includeVectors := iv, includeMetadata := im }).sql
        ∧ (listStmt cfg { cursor := some c1, limit := some l1, includeVectors := iv, includeMetadata := im }).args
          = [.vStr c1, .vInt (l1 + 1)])
    ∧ (∀ (cfg : IndexConfig) (ids1 ids2 : List String) (opts : RetrieveOptions),
        ids1.length = ids2.length →
        (retrieveStmt cfg (.many ids1) opts).sql
          = (retrieveStmt cfg (.many ids2) opts).sql
        ∧ (retrieveStmt cfg (.many ids1) opts).args = ids1.map .vStr)
    ∧ (∀ (cfg : IndexConfig) (v : List Int) (opts : QueryOptions),
        (queryStmt cfg v opts).args = [.vInt opts.topK]) := by
  refine ⟨?_, ?_, ?_, ?_, ?_⟩
  · intro vec
    exact sqlLexLit_roundtrip vec.id.toText
  · intro vec col s h
    rw [h]
    exact sqlLexLit_roundtrip s
  · intro cfg c1 c2 l1 l2 iv im h1 h2
    constructor
    · simp [listStmt, activeCursor, h1, h2]
    · simp [listStmt, activeCursor, h1]
  · intro cfg ids1 ids2 opts h
    constructor
    · simp [retrieveStmt, retrieveIdsArray, map_questionmarks, h]
    · simp [retrieveStmt, retrieveIdsArray]
  · intro cfg v opts
    rfl

theorem c4_witness :
    sqlLexLit (idLiteral { id := .str "o\x27brien", vector := [1] }) =
      some ("o\x27brien", "")
    ∧ (listStmt cfgEx { cursor := some "5", limit := some 3 }).args =
      [.vStr "5", .vInt 4] :=
  ⟨c4_escaping_and_parameter_binding.1 { id := .str "o\x27brien", vector := [1] },
   (c4_escaping_and_parameter_binding.2.2.1 cfgEx "5" "x" 3 9 none none
      (by decide) (by decide)).2⟩

/-- C5 (code bug): a record missing a configured column does not produce a
NULL for that column; `Array.prototype.join` renders the `undefined` element
as an empty string, so the statement ends in `VALUES (..., )` — a malformed
values list with an empty element. -/
theorem c5_missing_column_yields_malformed_statement :
    upsertValues cfgEx recMissingTitle =
      ["\x271\x27", "vector32(\x27[1, 2, 3]\x27)", ""]
    ∧ upsertSql cfgEx recMissingTitle =
      "\n        INSERT OR REPLACE INTO vector_index (id, embedding, title)\n        VALUES (\x271\x27, vector32(\x27[1, 2, 3]\x27), )\n      "
    ∧ "" ∈ upsertValues cfgEx recMissingTitle := by
  refine ⟨by decide, by decide, by decide⟩

/-- C10: with an empty identifier array, the IN list of the retrieve statement is
empty — the generated text literally contains `IN ()` — and the engine rejects
the statement as malformed instead of returning an empty result. -/
theorem c10_retrieve_empty_ids_malformed (cfg : IndexConfig) (table : List Row)
    (opts : RetrieveOptions) :
    (retrieveStmt cfgEx (.many []) {}).sql =
      "\n      SELECT vector_index.id, vector_extract(embedding) as vector, title\n      FROM vector_index\n      WHERE id IN ()\n    "
    ∧ retrieve cfg table (.many []) opts =
      .error (.engine (.malformedStatement "incomplete input near )")) := by
  exact ⟨by decide, rfl⟩

set_option maxRecDepth 4000 in
/-- C3 (counterexample): a query vector of length 2 against a table configured
with dimensionality 3 is not rejected — `query` succeeds and the mismatched
vector is interpolated into the statement sent to the engine. -/
theorem c3_counterexample :
    ((List.length [(1 : Int), 2] : Int) ≠ cfgEx.dimensions)
    ∧ query cfgEx [] [1, 2] { topK := 5 } =
        .ok (queryStmt cfgEx [1, 2] { topK := 5 }, [])
    ∧ (queryStmt cfgEx [1, 2] { topK := 5 }).sql =
        "\n        SELECT vector_index.id, 1 - vector_distance_cos(embedding, vector32(\x27[1, 2]\x27)) as similarity, title\n        FROM vector_index\n        \n        ORDER BY similarity DESC\n        LIMIT ?\n      " := by
  refine ⟨by decide, rfl, by decide⟩

/-- C3 (amended): the query path performs no dimensionality validation at all —
its entire behaviour (statement and result mapping) is independent of the
configured `dimensions`, so a mismatched query vector reaches the engine. -/
theorem c3_query_ignores_dimensions (cfg : IndexConfig) (rows : List Row)
    (v : List Int) (opts : QueryOptions) (d : Int) :
    query { cfg with dimensions := d } rows v opts = query cfg rows v opts := rfl


theorem exceptMap_ok_mem (f : α → Except ε β) (g : α → β) :
    ∀ l : List α, (∀ a ∈ l, f a = .ok (g a)) → exceptMap f l = .ok (l.map g) := by
  intro l
  induction l with
  | nil => intro _; rfl
  | cons a as ih =>
    intro h
    have ha := h a (List.mem_cons_self a as)
    have hrest := ih (fun x hx => h x (List.mem_cons_of_mem a hx))
    simp [exceptMap, ha, hrest]

theorem lookup_map_name (f : String → Value) (col : ColumnDefinition) :
    ∀ cols : List ColumnDefinition, col ∈ cols →
      (cols.map (fun c => (c.name, f c.name))).lookup col.name = some (f col.name) := by
  intro cols
  induction cols with
  | nil => intro h; cases h
  | cons c0 t ih =>
    intro h
    by_cases hb : col.name = c0.name
    · simp [List.lookup, hb]
    · have hbne : (col.name == c0.name) = false := by
        simp [hb]
      have hmem : col ∈ t := by
        rcases List.mem_cons.mp h with h0 | h0
        · exact absurd (congrArg ColumnDefinition.name h0) hb
        · exact h0
      simp [List.lookup, hbne, ih hmem]

theorem metaCols_lookup (cfg : IndexConfig) (row : Row) (col : ColumnDefinition)
    (h : col ∈ cfg.columns) :
    (metaCols cfg row).lookup col.name = some (rowGet row col.name) :=
  lookup_map_name (rowGet row) col cfg.columns h

/-- C7: for every returned row, query places the value of each configured column as
a top-level field of the response, while the row mapping shared by list and
retrieve (the loop bodies at lines 211-226 and 267-279 are the same
construction) nests the value of every configured column under `metadata` and
assigns no further top-level key. -/
theorem c7_dual_result_shape (cfg : IndexConfig) (row : Row) (col : ColumnDefinition)
    (hcol : col ∈ cfg.columns) (sc : Int) (hsc : ensureNumber row.similarity = .ok sc) :
    (∃ resp, rowToQueryResponse cfg false row = .ok resp
      ∧ resp.fields = metaCols cfg row
      ∧ resp.fields.lookup col.name = some (rowGet row col.name))
    ∧ (∃ item, rowToListItem cfg false true row = .ok item
      ∧ item.metadata = some (metaCols cfg row)
      ∧ (metaCols cfg row).lookup col.name = some (rowGet row col.name)
      ∧ item.extra = []) := by
  constructor
  · refine ⟨{ id := .str row.id, score := sc, vector := none, fields := metaCols cfg row },
      ?_, rfl, metaCols_lookup cfg row col hcol⟩
    simp [rowToQueryResponse, ensureIdType, hsc, metaCols]
  · exact ⟨_, rowToListItem_eval cfg false true row (Or.inl rfl), rfl,
      metaCols_lookup cfg row col hcol, rfl⟩

/-- A concrete row used by witnesses: id "2", integral similarity, a NULL
stored vector, and a title column value. -/
def rowEx : Row :=
  { id := "2", similarity := .vInt 1, vector := .vNull, cols := [("title", .vStr "m")] }

theorem c7_witness :
    ({ name := "title", colType := "TEXT" } : ColumnDefinition) ∈ cfgEx.columns
    ∧ ensureNumber rowEx.similarity = .ok 1
    ∧ ((∃ resp, rowToQueryResponse cfgEx false rowEx = .ok resp
        ∧ resp.fields = metaCols cfgEx rowEx
        ∧ resp.fields.lookup "title" = some (rowGet rowEx "title"))
      ∧ (∃ item, rowToListItem cfgEx false true rowEx = .ok item
        ∧ item.metadata = some (metaCols cfgEx rowEx)
        ∧ (metaCols cfgEx rowEx).lookup "title" = some (rowGet rowEx "title")
        ∧ item.extra = [])) :=
  ⟨by decide, rfl,
    c7_dual_result_shape cfgEx rowEx { name := "title", colType := "TEXT" }
      (by decide) 1 rfl⟩

set_option maxRecDepth 4000 in
/-- C8 (counterexample): the textual value `7` is neither a bracketed numeric
list nor a binary buffer, yet decoding succeeds — `JSON.parse` accepts any
valid JSON text and `parseVector` returns its result unchecked. -/
theorem c8_counterexample :
    parseVector (.vStr "7") = .ok (some (.fromJson (.jnum 7))) := by
  rfl

set_option maxRecDepth 4000 in
/-- C8 (amended): a textual value decodes by a general JSON parse — any valid
JSON text succeeds (bracketed numeric lists included) and invalid text fails
with the decoding error; a binary float buffer succeeds; numbers and bigints
fail; and on the list/retrieve path a NULL stored vector is skipped before
decoding, leaving the vector field absent rather than raising an error. -/
theorem c8_vector_decoding (cfg : IndexConfig) (s : String) (b : List Int)
    (m : Int) (row : Row) (hrow : row.vector = .vNull) (iv im : Bool) :
    parseVector (.vStr "[1, 2]") = .ok (some (.fromJson (.jarr [.jnum 1, .jnum 2])))
    ∧ parseVector (.vBlob b) = .ok (some (.fromBlob b))
    ∧ (∀ j, jsonParse s = some j → parseVector (.vStr s) = .ok (some (.fromJson j)))
    ∧ (jsonParse s = none →
        parseVector (.vStr s) = .error (.message "Failed to parse vector"))
    ∧ parseVector .vNull = .ok none
    ∧ (∃ e, parseVector (.vInt m) = .error e)
    ∧ (∃ e, parseVector (.vBig m) = .error e)
    ∧ rowToListItem cfg iv im row =
        .ok { id := .str row.id, vector := none,
              metadata := if im then some (metaCols cfg row) else none,
              extra := [] } := by
  refine ⟨by rfl, rfl, ?_, ?_, rfl, ⟨_, rfl⟩, ⟨_, rfl⟩, ?_⟩
  · intro j hj
    simp [parseVector, hj]
  · intro hj
    simp [parseVector, hj]
  · exact rowToListItem_eval cfg iv im row (Or.inr (by simp [hrow, jsTruthy]))

set_option maxRecDepth 4000 in
theorem c8_witness :
    rowEx.vector = .vNull
    ∧ parseVector (.vStr "[1, 2]") = .ok (some (.fromJson (.jarr [.jnum 1, .jnum 2])))
    ∧ rowToListItem cfgEx true true rowEx =
        .ok { id := .str "2", vector := none,
              metadata := if true then some (metaCols cfgEx rowEx) else none,
              extra := [] } :=
  ⟨rfl, (c8_vector_decoding cfgEx "x" [] 0 rowEx rfl true true).1,
   (c8_vector_decoding cfgEx "x" [] 0 rowEx rfl true true).2.2.2.2.2.2.2⟩

/-- C9: calling list with limit 0 on a non-empty table returns an empty item
list with a null next cursor — observably identical to the empty-table result —
because the extra fetched row exists but the cursor is read from JS index
`limit - 1 = -1`, which is absent. -/
theorem c9_limit_zero_reports_termination (cfg : IndexConfig) (table : List Row)
    (h : table ≠ []) :
    list cfg table { limit := some 0 } = .ok { items := [], nextCursor := none }
    ∧ list cfg ([] : List Row) { limit := some 0 } =
        .ok { items := [], nextCursor := none } := by
  constructor
  · cases table with
    | nil => exact absurd rfl h
    | cons a t =>
      simp [list, activeCursor, engineList, cursorFilter, applyLimit, jsSlice,
        jsIndex, exceptMap]
  · rfl

theorem c9_witness :
    ([({ id := "a" } : Row)] ≠ ([] : List Row))
    ∧ list cfgEx [{ id := "a" }] { limit := some 0 } =
        .ok { items := [], nextCursor := none } :=
  ⟨by simp, (c9_limit_zero_reports_termination cfgEx [{ id := "a" }] (by simp)).1⟩

theorem rowToListItem_default (cfg : IndexConfig) (r : Row) (h : r.vector = .vNull) :
    rowToListItem cfg true true r = .ok (defaultListItem cfg r) :=
  rowToListItem_eval cfg true true r (Or.inr (by simp [h, jsTruthy]))

theorem filter_single_head (i : String) :
    ∀ table : List Row, i ∈ table.map Row.id →
      ∃ r, (table.filter (fun r => [i].contains r.id)).head? = some r ∧ r.id = i := by
  intro table
  induction table with
  | nil => intro h; simp at h
  | cons a t ih =>
    intro hmem
    by_cases hai : a.id = i
    · refine ⟨a, ?_, hai⟩
      have hc : ([i].contains a.id) = true := by simp [hai]
      simp only [List.filter_cons, hc]
      rfl
    · have hmem2 : i ∈ t.map Row.id := by
        rcases List.mem_map.mp hmem with ⟨r, hr, hri⟩
        rcases List.mem_cons.mp hr with h0 | h0
        · exact absurd (h0 ▸ hri) hai
        · exact List.mem_map.mpr ⟨r, h0, hri⟩
      obtain ⟨r, hr1, hr2⟩ := ih hmem2
      have hc : ([i].contains a.id) = false := by simp [hai]
      refine ⟨r, ?_, hr2⟩
      simp only [List.filter_cons, hc]
      exact hr1

/-- C6: retrieve returns exactly the rows whose identifier exists in the
table — non-existent identifiers are silently omitted, without error, and the
returned array can be shorter than the input; a single-identifier input yields
one result when found and the `undefined` sentinel (`none`), not a thrown
error, when absent. -/
theorem c6_retrieve_set_semantics (cfg : IndexConfig) (table : List Row)
    (hvec : ∀ r ∈ table, r.vector = .vNull)
    (hnd : (table.map Row.id).Nodup)
    (ids : List String) (hne : ids ≠ []) (i : String) :
    (∃ items, retrieve cfg table (.many ids) {} = .ok (.several items)
      ∧ items.map ListItem.id
          = (table.filter (fun r => ids.contains r.id)).map (fun r => IdValue.str r.id)
      ∧ items.length ≤ ids.length)
    ∧ (i ∈ table.map Row.id →
        ∃ item, retrieve cfg table (.one i) {} = .ok (.single (some item))
          ∧ item.id = .str i)
    ∧ (i ∉ table.map Row.id →
        retrieve cfg table (.one i) {} = .ok (.single none)) := by
  have hmapOk : ∀ (l : List Row), (∀ r ∈ l, r ∈ table) →
      exceptMap (rowToListItem cfg true true) l = .ok (l.map (defaultListItem cfg)) := by
    intro l hl
    exact exceptMap_ok_mem _ _ l (fun r hr => rowToListItem_default cfg r (hvec r (hl r hr)))
  refine ⟨?_, ?_, ?_⟩
  · have hempty : ids.isEmpty = false := by
      cases ids with
      | nil => exact absurd rfl hne
      | cons x xs => rfl
    have heng : engineRetrieve table ids =
        .ok (table.filter (fun r => ids.contains r.id)) := by
      simp [engineRetrieve, hempty]
    have hexc := hmapOk (table.filter (fun r => ids.contains r.id))
      (fun r hr => List.mem_of_mem_filter hr)
    refine ⟨(table.filter (fun r => ids.contains r.id)).map (defaultListItem cfg), ?_, ?_, ?_⟩
    · simp only [retrieve, retrieveIdsArray, Option.getD, heng, hexc]
    · simp [List.map_map, defaultListItem, Function.comp]
    · have hsubset : (table.filter (fun r => ids.contains r.id)).map Row.id ⊆ ids := by
        intro x hx
        rcases List.mem_map.mp hx with ⟨r, hr, hri⟩
        have hcon := (List.mem_filter.mp hr).2
        have : r.id ∈ ids := by simpa using hcon
        exact hri ▸ this
      have hnodupf : ((table.filter (fun r => ids.contains r.id)).map Row.id).Nodup := by
        have hsub : (table.filter (fun r => ids.contains r.id)).Sublist table :=
          List.filter_sublist _
        exact (hsub.map Row.id).nodup hnd
      have h1 : ((table.filter (fun r => ids.contains r.id)).map Row.id).toFinset.card
          = ((table.filter (fun r => ids.contains r.id)).map Row.id).length :=
        List.toFinset_card_of_nodup hnodupf
      have h2 : ((table.filter (fun r => ids.contains r.id)).map Row.id).toFinset
          ⊆ ids.toFinset := by
        intro x hx
        rw [List.mem_toFinset] at hx ⊢
        exact hsubset hx
      have h3 := Finset.card_le_card h2
      have h4 := ids.toFinset_card_le
      have h5 : ((table.filter (fun r => ids.contains r.id)).map Row.id).length
          = (table.filter (fun r => ids.contains r.id)).length := List.length_map _ _
      simp only [List.length_map]
      omega
  · intro hmem
    obtain ⟨r, hr1, hr2⟩ := filter_single_head i table hmem
    have heng : engineRetrieve table [i] =
        .ok (table.filter (fun r => [i].contains r.id)) := by
      simp [engineRetrieve]
    have hexc := hmapOk (table.filter (fun r => [i].contains r.id))
      (fun r hr => List.mem_of_mem_filter hr)
    refine ⟨defaultListItem cfg r, ?_, by simp [defaultListItem, hr2]⟩
    simp only [retrieve, retrieveIdsArray, Option.getD, heng, hexc, List.head?_map, hr1]
    rfl
  · intro hni
    have hfil : table.filter (fun r => [i].contains r.id) = [] := by
      rw [List.filter_eq_nil_iff]
      intro r hr hcon
      have : r.id = i := by simpa using hcon
      exact hni (List.mem_map.mpr ⟨r, hr, this⟩)
    have heng : engineRetrieve table [i] =
        .ok (table.filter (fun r => [i].contains r.id)) := by
      simp [engineRetrieve]
    simp only [retrieve, retrieveIdsArray, Option.getD, heng, hfil, exceptMap]
    rfl

/-- Three stored rows with identifiers 1-3, used by witnesses. -/
def tbl3 : List Row := [{ id := "1" }, { id := "2" }, { id := "3" }]

theorem c6_witness :
    (∀ r ∈ tbl3, r.vector = Value.vNull)
    ∧ (tbl3.map Row.id).Nodup
    ∧ (["1", "999", "3"] ≠ ([] : List String))
    ∧ ((∃ items, retrieve cfgEx tbl3 (.many ["1", "999", "3"]) {} = .ok (.several items)
        ∧ items.map ListItem.id
            = (tbl3.filter (fun r => ["1", "999", "3"].contains r.id)).map
                (fun r => IdValue.str r.id)
        ∧ items.length ≤ (["1", "999", "3"] : List String).length)
      ∧ ("2" ∈ tbl3.map Row.id →
          ∃ item, retrieve cfgEx tbl3 (.one "2") {} = .ok (.single (some item))
            ∧ item.id = .str "2")
      ∧ ("2" ∉ tbl3.map Row.id →
          retrieve cfgEx tbl3 (.one "2") {} = .ok (.single none))) :=
  ⟨by decide, by decide, by decide,
   c6_retrieve_set_semantics cfgEx tbl3 (by decide) (by decide)
     ["1", "999", "3"] (by decide) "2"⟩

theorem rowToListItem_noVec (cfg : IndexConfig) (im : Bool) (row : Row) :
    rowToListItem cfg false im row =
      .ok { id := .str row.id, vector := none,
            metadata := if im then some (metaCols cfg row) else none,
            extra := [] } :=
  rowToListItem_eval cfg false im row (Or.inl rfl)

theorem list_step (cfg : IndexConfig) (table : List Row) (c : Option String)
    (hc : activeCursor c = c) (L : Nat) (hL : 1 ≤ L) :
    list cfg table { cursor := c, limit := some (L : Int) } =
      .ok { items := ((cursorFilter c table).take L).map (defaultListItem cfg),
            nextCursor :=
              if L < (cursorFilter c table).length then
                ((cursorFilter c table).get? (L - 1)).map Row.id
              else none } := by
  have hrows : engineList table c ((L : Int) + 1) = (cursorFilter c table).take (L + 1) := by
    have hcast : ((L : Int) + 1) = ((L + 1 : Nat) : Int) := by push_cast; ring
    rw [engineList, hcast, applyLimit_ofNat]
  simp only [list, hc, Option.getD, hrows]
  rcases Nat.eq_zero_or_pos (cursorFilter c table).length with hn | hn
  · have hnil : cursorFilter c table = [] := List.length_eq_zero.mp hn
    simp [hnil]
  · have hlen : ((cursorFilter c table).take (L + 1)).length = min (L + 1) (cursorFilter c table).length := by
      simp [List.length_take]
    have hne : ¬ ((cursorFilter c table).take (L + 1)).length = 0 := by omega
    simp only [if_neg hne]
    have hslice : jsSlice (List.take (L + 1) (cursorFilter c table)) (L : Int)
        = List.take L (cursorFilter c table) := by
      rw [jsSlice, if_neg (by omega), Int.toNat_ofNat, List.take_take,
        Nat.min_eq_left (by omega)]
    have hmap : exceptMap (rowToListItem cfg false true)
        (List.take L (cursorFilter c table))
        = .ok ((List.take L (cursorFilter c table)).map (defaultListItem cfg)) :=
      exceptMap_ok_mem _ _ _ (fun a _ => rowToListItem_noVec cfg true a)
    simp only [hslice, hmap]
    by_cases hcase : L < (cursorFilter c table).length
    · have hpos : ((L : Int) < ((List.take (L + 1) (cursorFilter c table)).length : Int)) := by
        rw [hlen]
        have : L < min (L + 1) (cursorFilter c table).length := by omega
        exact_mod_cast this
      have hidx : jsIndex (List.take (L + 1) (cursorFilter c table)) ((L : Int) - 1)
          = (cursorFilter c table).get? (L - 1) := by
        have h1 : ((L : Int) - 1) = ((L - 1 : Nat) : Int) := by omega
        rw [jsIndex, h1, if_neg (by omega), Int.toNat_ofNat]
        exact List.get?_take (by omega)
      simp only [if_pos hpos, if_pos hcase, hidx]
      cases hget : (cursorFilter c table).get? (L - 1) with
      | none => simp
      | some lastItem => simp
    · have hneg : ¬ ((L : Int) < ((List.take (L + 1) (cursorFilter c table)).length : Int)) := by
        rw [hlen]
        have : ¬ L < min (L + 1) (cursorFilter c table).length := by omega
        exact_mod_cast this
      simp only [if_neg hneg, if_neg hcase]

theorem filter_gt_of_get (p : Row) :
    ∀ (l : List Row) (k : Nat), l.Pairwise (fun a b => a.id < b.id) →
      l.get? k = some p →
      l.filter (fun r => p.id < r.id) = l.drop (k + 1) := by
  intro l
  induction l with
  | nil => intro k _ h; simp at h
  | cons a t ih =>
    intro k hpw hget
    rcases List.pairwise_cons.mp hpw with ⟨hhead, htail⟩
    cases k with
    | zero =>
      have ha : a = p := by simpa using hget
      subst ha
      have hcond : (decide (a.id < a.id)) = false := by simp
      rw [List.filter_cons]
      simp only [hcond, Bool.false_eq_true, if_false, List.drop_succ_cons, List.drop_zero]
      exact List.filter_eq_self.mpr (fun x hx => decide_eq_true (hhead x hx))
    | succ k =>
      have hget2 : t.get? k = some p := by simpa using hget
      have hpt : p ∈ t := List.get?_mem hget2
      have hap : a.id < p.id := hhead p hpt
      have hcond : (decide (p.id < a.id)) = false := by
        simp [not_lt.mpr (le_of_lt hap)]
      rw [List.filter_cons]
      simp only [hcond, Bool.false_eq_true, if_false, List.drop_succ_cons]
      exact ih k htail hget2

theorem cursorFilter_pairwise (table : List Row)
    (hs : table.Pairwise (fun a b => a.id < b.id)) (c : Option String) :
    (cursorFilter c table).Pairwise (fun a b => a.id < b.id) := by
  cases c with
  | none => exact hs
  | some cc => exact hs.filter _

theorem cursorFilter_after_pivot (table : List Row)
    (hs : table.Pairwise (fun a b => a.id < b.id))
    (c : Option String) (L : Nat) (hL : 1 ≤ L) (p : Row)
    (hp : (cursorFilter c table).get? (L - 1) = some p) :
    cursorFilter (some p.id) table = (cursorFilter c table).drop L := by
  have hsf := cursorFilter_pairwise table hs c
  have hstep : table.filter (fun r => p.id < r.id)
      = (cursorFilter c table).filter (fun r => p.id < r.id) := by
    cases c with
    | none => rfl
    | some cc =>
      have hpm : p ∈ cursorFilter (some cc) table := List.get?_mem hp
      have hccp : cc < p.id := by
        have := (List.mem_filter.mp hpm).2
        exact of_decide_eq_true this
      show table.filter (fun r => p.id < r.id)
          = (table.filter (fun r => cc < r.id)).filter (fun r => p.id < r.id)
      rw [List.filter_filter]
      apply List.filter_congr
      intro r _
      by_cases h : p.id < r.id
      · simp [h, lt_trans hccp h]
      · simp [h]
  have hdrop : (cursorFilter c table).filter (fun r => p.id < r.id)
      = (cursorFilter c table).drop L := by
    have := filter_gt_of_get p (cursorFilter c table) (L - 1) hsf hp
    have hL1 : L - 1 + 1 = L := by omega
    rw [hL1] at this
    exact this
  show table.filter (fun r => p.id < r.id) = (cursorFilter c table).drop L
  rw [hstep, hdrop]

theorem ceilDiv_le_one (n L : Nat) (hL : 1 ≤ L) (h : n ≤ L) :
    max 1 (ceilDiv n L) = 1 := by
  have h2 : (n + L - 1) / L < 2 := by
    rw [Nat.div_lt_iff_lt_mul (by omega : 0 < L)]
    omega
  unfold ceilDiv
  omega

theorem ceilDiv_rec (n L : Nat) (hL : 1 ≤ L) (h : L < n) :
    max 1 (ceilDiv n L) = 1 + max 1 (ceilDiv (n - L) L) := by
  have h1 : n + L - 1 = (n - 1) + L := by omega
  have h2 : n - L + L - 1 = n - 1 := by omega
  have h3 : 1 ≤ (n - 1) / L := (Nat.one_le_div_iff (by omega)).mpr (by omega)
  unfold ceilDiv
  rw [h1, h2, Nat.add_div_right _ (by omega : 0 < L)]
  omega

theorem listPages_spec (cfg : IndexConfig) (table : List Row)
    (hs : table.Pairwise (fun a b => a.id < b.id))
    (hne : ∀ r ∈ table, r.id ≠ "") (L : Nat) (hL : 1 ≤ L) :
    ∀ (fuel : Nat) (c : Option String), activeCursor c = c →
      (cursorFilter c table).length < fuel →
      (listPages cfg table (L : Int) c fuel).length
          = max 1 (ceilDiv (cursorFilter c table).length L)
      ∧ (listPages cfg table (L : Int) c fuel).flatMap (fun p => p.items.map ListItem.id)
          = (cursorFilter c table).map (fun r => IdValue.str r.id)
      ∧ (∃ last, (listPages cfg table (L : Int) c fuel).getLast? = some last
          ∧ last.nextCursor = none) := by
  intro fuel
  induction fuel with
  | zero =>
    intro c _ h
    exact absurd h (Nat.not_lt_zero _)
  | succ fuel ih =>
    intro c hcv hfuel
    rw [listPages, list_step cfg table c hcv L hL]
    by_cases hcase : L < (cursorFilter c table).length
    · have hidx : L - 1 < (cursorFilter c table).length := by omega
      obtain ⟨p, hp⟩ : ∃ p, (cursorFilter c table).get? (L - 1) = some p :=
        ⟨(cursorFilter c table).get ⟨L - 1, hidx⟩, List.get?_eq_get hidx⟩
      have hpmem : p ∈ table := by
        have hpm : p ∈ cursorFilter c table := List.get?_mem hp
        cases c with
        | none => exact hpm
        | some cc => exact List.mem_of_mem_filter hpm
      have hvalid : activeCursor (some p.id) = some p.id := by
        simp [activeCursor, hne p hpmem]
      have hdrop : cursorFilter (some p.id) table = (cursorFilter c table).drop L :=
        cursorFilter_after_pivot table hs c L hL p hp
      have hlen2 : (cursorFilter (some p.id) table).length
          = (cursorFilter c table).length - L := by
        rw [hdrop, List.length_drop]
      have hfuel2 : (cursorFilter (some p.id) table).length < fuel := by omega
      obtain ⟨ihlen, ihbind, last, ihlast, ihnone⟩ := ih (some p.id) hvalid hfuel2
      simp only [if_pos hcase, hp, Option.map_some']
      have hrecne : listPages cfg table (L : Int) (some p.id) fuel ≠ [] := by
        intro hnil
        rw [hnil] at ihlast
        simp at ihlast
      refine ⟨?_, ?_, ?_⟩
      · simp only [List.length_cons, ihlen, hlen2]
        rw [ceilDiv_rec _ _ hL hcase]
        omega
      · have hcb : ∀ (page : ListResponse) (rec : List ListResponse),
            (page :: rec).flatMap (fun p => p.items.map ListItem.id)
              = page.items.map ListItem.id
                ++ rec.flatMap (fun p => p.items.map ListItem.id) := fun _ _ => rfl
        rw [hcb]
        have h1 : (((cursorFilter c table).take L).map (defaultListItem cfg)).map ListItem.id
            = ((cursorFilter c table).take L).map (fun r => IdValue.str r.id) := by
          simp only [List.map_map]
          rfl
        simp only [ihbind, hdrop, h1]
        rw [← List.map_append, List.take_append_drop]
      · refine ⟨last, ?_, ihnone⟩
        cases hrec : listPages cfg table (L : Int) (some p.id) fuel with
        | nil => exact absurd hrec hrecne
        | cons q qs =>
          rw [hrec] at ihlast
          rw [List.getLast?_cons_cons]
          exact ihlast
    · simp only [if_neg hcase]
      have htake : (cursorFilter c table).take L = cursorFilter c table :=
        List.take_of_length_le (by omega)
      have hceil := ceilDiv_le_one (cursorFilter c table).length L hL (by omega)
      refine ⟨?_, ?_, ?_⟩
      · simp [hceil]
      · simp [htake, List.map_map, defaultListItem, Function.comp]
      · exact ⟨_, rfl, rfl⟩

/-- Two stored rows, the first with the empty-string identifier. -/
def tblEmptyId : List Row := [{ id := "" }, { id := "a" }]

/-- C1 (counterexample): with two records whose first identifier is the empty
string and limit 1, the claimed behaviour — termination with a null cursor
after `⌈2/1⌉ = 2` pages, each identifier visited exactly once — fails: three
chained calls all return the page `[""]` with cursor `""` (the empty-string
cursor is falsy, so every call restarts from the beginning), visiting the
empty identifier three times with no termination in sight. -/
theorem c1_counterexample :
    ceilDiv tblEmptyId.length 1 = 2
    ∧ (listPages cfgEx tblEmptyId (1 : Int) none 3).flatMap
        (fun p => p.items.map ListItem.id) = [.str "", .str "", .str ""]
    ∧ ((listPages cfgEx tblEmptyId (1 : Int) none 3).getLast?.map
        ListResponse.nextCursor) = some (some "") := by
  exact ⟨rfl, rfl, rfl⟩

/-- C1 (amended): for a table whose identifiers are pairwise distinct, sorted,
and nonempty strings, chaining cursors with a fixed positive limit L visits
each identifier exactly once (the concatenation of the page identifiers is
precisely the identifier enumeration of the table, without duplicates), terminates
with a null cursor, and takes `max 1 ⌈N/L⌉` pages — the `max` because an empty
table still answers the single call made with an empty page and a null
cursor. -/
theorem c1_pagination_completeness (cfg : IndexConfig) (table : List Row) (L : Nat)
    (hL : 1 ≤ L) (hs : table.Pairwise (fun a b => a.id < b.id))
    (hne : ∀ r ∈ table, r.id ≠ "") :
    (listPages cfg table (L : Int) none (table.length + 1)).length
        = max 1 (ceilDiv table.length L)
    ∧ (listPages cfg table (L : Int) none (table.length + 1)).flatMap
        (fun p => p.items.map ListItem.id) = table.map (fun r => IdValue.str r.id)
    ∧ ((listPages cfg table (L : Int) none (table.length + 1)).flatMap
        (fun p => p.items.map ListItem.id)).Nodup
    ∧ (∃ last, (listPages cfg table (L : Int) none (table.length + 1)).getLast?
        = some last ∧ last.nextCursor = none) := by
  obtain ⟨h1, h2, h3⟩ := listPages_spec cfg table hs hne L hL (table.length + 1) none
    rfl (Nat.lt_succ_self table.length)
  refine ⟨h1, h2, ?_, h3⟩
  rw [h2]
  have hnd : table.Pairwise (fun a b => IdValue.str a.id ≠ IdValue.str b.id) := by
    refine hs.imp ?_
    intro a b hab heq
    exact absurd (IdValue.str.inj heq ▸ hab) (lt_irrefl _)
  exact List.pairwise_map.mpr hnd

theorem c1_witness :
    ((1 : Nat) ≤ 2
      ∧ tbl3.Pairwise (fun a b => a.id < b.id)
      ∧ (∀ r ∈ tbl3, r.id ≠ ""))
    ∧ ((listPages cfgEx tbl3 ((2 : Nat) : Int) none (tbl3.length + 1)).length
        = max 1 (ceilDiv tbl3.length 2)
      ∧ (listPages cfgEx tbl3 ((2 : Nat) : Int) none (tbl3.length + 1)).flatMap
          (fun p => p.items.map ListItem.id) = tbl3.map (fun r => IdValue.str r.id)
      ∧ ((listPages cfgEx tbl3 ((2 : Nat) : Int) none (tbl3.length + 1)).flatMap
          (fun p => p.items.map ListItem.id)).Nodup
      ∧ (∃ last, (listPages cfgEx tbl3 ((2 : Nat) : Int) none (tbl3.length + 1)).getLast?
          = some last ∧ last.nextCursor = none)) :=
  ⟨⟨by decide, by simp [tbl3]; decide, by decide⟩,
   c1_pagination_completeness cfgEx tbl3 2 (by decide) (by simp [tbl3]; decide) (by decide)⟩

/-- The truthiness normalisation of a cursor is idempotent: a nonempty cursor
survives it and an empty or absent one is already gone. -/
theorem activeCursor_idem (c : Option String) :
    activeCursor (activeCursor c) = activeCursor c := by
  cases c with
  | none => rfl
  | some s =>
    by_cases h : s = ""
    · simp [activeCursor, h]
    · simp [activeCursor, h]

/-- Behaviour of `list` depends on the cursor only through its truthiness
normalisation, because the body applies `if (cursor)` before anything else. -/
theorem list_cursor_norm (cfg : IndexConfig) (table : List Row) (c : Option String)
    (lim : Option Int) (iv im : Option Bool) :
    list cfg table { cursor := c, limit := lim, includeVectors := iv, includeMetadata := im }
      = list cfg table { cursor := activeCursor c, limit := lim, includeVectors := iv, includeMetadata := im } := by
  simp only [list, activeCursor_idem]

/-- C2 (counterexample): the claim quantifies over every call, but with cursor
`""` — a value `list` itself hands out when a stored identifier is the empty
string — the truthiness test `if (cursor)` drops the WHERE clause: on a table
whose first row has the empty identifier, the call with cursor `""` and
limit 1 returns that row as an item even though its identifier is not strictly
greater than the cursor, refuting the claimed strictly-greater fetch. -/
theorem c2_counterexample :
    list cfgEx tblEmptyId { cursor := some "", limit := some 1 } =
      .ok { items := [defaultListItem cfgEx { id := "" }], nextCursor := some "" }
    ∧ ¬ ("" < ({ id := "" } : Row).id) := by
  exact ⟨rfl, by simp⟩

/-- C2 (amended): one call to list with cursor c and limit L fetches `L + 1`
rows in ascending identifier order (the bound limit argument is `L + 1`) —
rows strictly past the cursor when the cursor is a present nonempty string,
and all rows from the start of the table when the cursor is absent or the
empty string (the truthiness test treats an empty-string cursor as absent);
when the fetched count exceeds L, the next cursor is the identifier of the
L-th fetched row (1-based, i.e. index `L - 1`) and exactly the first L fetched
rows become items; otherwise the next cursor is null; an empty fetch yields an
empty item list and a null cursor rather than an error. -/
theorem c2_list_single_call (cfg : IndexConfig) (table : List Row)
    (hs : table.Pairwise (fun a b => a.id < b.id))
    (c : Option String) (L : Nat) (hL : 1 ≤ L) :
    (listStmt cfg { cursor := c, limit := some (L : Int) }).args.getLast?
        = some (.vInt ((L : Int) + 1))
    ∧ ((c = none ∨ c = some "") → cursorFilter (activeCursor c) table = table)
    ∧ (∀ s, activeCursor c = some s →
        ∀ r ∈ (cursorFilter (activeCursor c) table).take (L + 1), s < r.id)
    ∧ ((cursorFilter (activeCursor c) table).take (L + 1)).Pairwise
        (fun a b => a.id < b.id)
    ∧ list cfg table { cursor := c, limit := some (L : Int) } =
        .ok { items := (((cursorFilter (activeCursor c) table).take (L + 1)).take L).map
                (defaultListItem cfg),
              nextCursor :=
                if L < ((cursorFilter (activeCursor c) table).take (L + 1)).length then
                  (((cursorFilter (activeCursor c) table).take (L + 1)).get? (L - 1)).map
                    Row.id
                else none }
    ∧ ((cursorFilter (activeCursor c) table).take (L + 1) = [] →
        list cfg table { cursor := c, limit := some (L : Int) }
          = .ok { items := [], nextCursor := none }) := by
  have hnorm : list cfg table { cursor := c, limit := some (L : Int) } =
      list cfg table { cursor := activeCursor c, limit := some (L : Int) } :=
    list_cursor_norm cfg table c (some (L : Int)) none none
  have hstep := list_step cfg table (activeCursor c) (activeCursor_idem c) L hL
  refine ⟨?_, ?_, ?_, ?_, ?_, ?_⟩
  · cases c with
    | none => rfl
    | some s =>
      by_cases h : s = ""
      · subst h
        rfl
      · simp [listStmt, activeCursor, h]
  · rintro (rfl | rfl) <;> rfl
  · intro s hcs r hr
    rw [hcs] at hr
    exact of_decide_eq_true (List.mem_filter.mp (List.mem_of_mem_take hr)).2
  · exact (cursorFilter_pairwise table hs (activeCursor c)).sublist (List.take_sublist _ _)
  · rw [hnorm, hstep]
    have hitems : ((cursorFilter (activeCursor c) table).take (L + 1)).take L
        = (cursorFilter (activeCursor c) table).take L := by
      rw [List.take_take, Nat.min_eq_left (by omega)]
    have hcond : (L < ((cursorFilter (activeCursor c) table).take (L + 1)).length)
        ↔ (L < (cursorFilter (activeCursor c) table).length) := by
      rw [List.length_take]
      omega
    have hget : ((cursorFilter (activeCursor c) table).take (L + 1)).get? (L - 1)
        = (cursorFilter (activeCursor c) table).get? (L - 1) :=
      List.get?_take (by omega)
    rw [hitems, hget]
    by_cases hcc : L < (cursorFilter (activeCursor c) table).length
    · rw [if_pos hcc, if_pos (hcond.mpr hcc)]
    · rw [if_neg hcc, if_neg (fun h => hcc (hcond.mp h))]
  · intro hfe
    have hnil : cursorFilter (activeCursor c) table = [] := by
      rcases List.take_eq_nil_iff.mp hfe with h | h
      · omega
      · exact h
    rw [hnorm, hstep, hnil]
    simp

theorem c2_witness :
    (tbl3.Pairwise (fun a b => a.id < b.id) ∧ (1 : Nat) ≤ 2)
    ∧ ((listStmt cfgEx { cursor := none, limit := some ((2 : Nat) : Int) }).args.getLast?
        = some (.vInt (((2 : Nat) : Int) + 1))
      ∧ (((none : Option String) = none ∨ (none : Option String) = some "") →
          cursorFilter (activeCursor none) tbl3 = tbl3)
      ∧ (∀ s, activeCursor none = some s →
          ∀ r ∈ (cursorFilter (activeCursor none) tbl3).take (2 + 1), s < r.id)
      ∧ ((cursorFilter (activeCursor none) tbl3).take (2 + 1)).Pairwise
          (fun a b => a.id < b.id)
      ∧ list cfgEx tbl3 { cursor := none, limit := some ((2 : Nat) : Int) } =
          .ok { items := (((cursorFilter (activeCursor none) tbl3).take (2 + 1)).take 2).map
                  (defaultListItem cfgEx),
                nextCursor :=
                  if 2 < ((cursorFilter (activeCursor none) tbl3).take (2 + 1)).length then
                    (((cursorFilter (activeCursor none) tbl3).take (2 + 1)).get? (2 - 1)).map
                      Row.id
                  else none }
      ∧ ((cursorFilter (activeCursor none) tbl3).take (2 + 1) = [] →
          list cfgEx tbl3 { cursor := none, limit := some ((2 : Nat) : Int) }
            = .ok { items := [], nextCursor := none })) :=
  ⟨⟨by simp [tbl3]; decide, by decide⟩,
   c2_list_single_call cfgEx tbl3 (by simp [tbl3]; decide) none 2 (by decide)⟩

end LV
